import Mathlib

/-!
Shallow embedding of the Ken-Burns slideshow compositor of LongFormYT.

Two implementations exist in the repository and both are modelled here:

* `Photo` embeds `video_assembler/photo_assembler.py` (landscape 1920x1080
  stills assembler with round-robin effects);
* `Shorts` embeds `ShortsYT/video_assembler.py` (vertical 1080x1920
  assembler with random effects, an image mode and a random fast-cut
  video mode).

Real arithmetic of the Python code (floats) is modelled over `ℚ`.
Randomness (`random.choice`, `random.uniform`) is modelled by explicit
streams of draws supplied as function arguments: `random.choice(pool)`
becomes an arbitrary index taken `% pool.length`, and `random.uniform(0, m)`
becomes `u * m` for a draw `u` with `0 ≤ u ≤ 1`.
-/

namespace LongFormYT

/-- A transformed image's axis-aligned bounding box on the compositing
canvas: top-left corner `(x, y)`, width `w`, height `h`. -/
structure BBox where
  x : ℚ
  y : ℚ
  w : ℚ
  h : ℚ
deriving DecidableEq

/-- The box `b` fully contains the output frame `[0, fw] x [0, fh]`
(no background exposed inside the frame). -/
def coversFrameB (fw fh : ℚ) (b : BBox) : Bool :=
  (b.x ≤ 0) && (b.y ≤ 0) && (fw ≤ b.x + b.w) && (fh ≤ b.y + b.h)

namespace Photo

/-- `RESOLUTION = (1920, 1080)` of photo_assembler.py. -/
def RESOLUTION : ℚ × ℚ := (1920, 1080)

/-- `BASE_SCALE = 1.35` of photo_assembler.py. -/
def BASE_SCALE : ℚ := 27 / 20

/-- `ZOOM_INTENSITY = 0.20` of photo_assembler.py. -/
def ZOOM_INTENSITY : ℚ := 1 / 5

/-- `EFFECTS` list of photo_assembler.py, cycled round-robin. -/
def EFFECTS : List String :=
  ["pan_right", "zoom_out", "zoom_in", "pan_left", "static"]

/-- `pan_distance = 150` in the pan branches of `apply_ken_burns`. -/
def pan_distance : ℚ := 150

/-- `scale_factor = max(required_width / image_width, canvas_height / image_height)`
with `required_width = canvas_width + 2 * pan_distance`, from the pan
branches of `apply_ken_burns`. -/
def panScaleFactor (iw ih : ℚ) : ℚ :=
  max ((1920 + 2 * pan_distance) / iw) (1080 / ih)

/-- `scaled_width = image_width * scale_factor`. -/
def scaledWidth (iw ih : ℚ) : ℚ := iw * panScaleFactor iw ih

/-- Height of the pan-scaled image, `image_height * scale_factor`. -/
def scaledHeight (iw ih : ℚ) : ℚ := ih * panScaleFactor iw ih

/-- `max_pan = (scaled_width - canvas_width) / 2`. -/
def maxPan (iw ih : ℚ) : ℚ := (scaledWidth iw ih - 1920) / 2

/-- `safe_pan = max_pan * 0.9`. -/
def safePan (iw ih : ℚ) : ℚ := maxPan iw ih * (9 / 10)

/-- Top-left x position of the `pan_right` clip at time `t`:
`safe_pan - (2 * safe_pan * t / duration)`. -/
def panRightX (iw ih d t : ℚ) : ℚ :=
  safePan iw ih - 2 * safePan iw ih * t / d

/-- Top-left x position of the `pan_left` clip at time `t`:
`-safe_pan + (2 * safe_pan * t / duration)`. -/
def panLeftX (iw ih d t : ℚ) : ℚ :=
  -safePan iw ih + 2 * safePan iw ih * t / d

/-- Bounding box of the `pan_right` clip at time `t` on the 1920x1080
canvas: x from the position lambda, y centered (`"center"`). -/
def panRightBBox (iw ih d t : ℚ) : BBox :=
  { x := panRightX iw ih d t
    y := (1080 - scaledHeight iw ih) / 2
    w := scaledWidth iw ih
    h := scaledHeight iw ih }

/-- `zoom_in` scale: `BASE_SCALE + BASE_SCALE * ZOOM_INTENSITY * (t / duration)`. -/
def zoomInScale (d t : ℚ) : ℚ :=
  BASE_SCALE + BASE_SCALE * ZOOM_INTENSITY * (t / d)

/-- `zoom_out` scale: `BASE_SCALE + BASE_SCALE * ZOOM_INTENSITY * (1 - t / duration)`. -/
def zoomOutScale (d t : ℚ) : ℚ :=
  BASE_SCALE + BASE_SCALE * ZOOM_INTENSITY * (1 - t / d)

/-- Position of the zoom clips: the constant `"center"`, independent of `t`. -/
def zoomPosition (_t : ℚ) : String := "center"

/-- Effect chosen for scene `i`: `EFFECTS[i % len(EFFECTS)]`
(round-robin, `generate_photo_video`). -/
def effectFor (i : ℕ) : String :=
  EFFECTS.getD (i % EFFECTS.length) "static"

end Photo

namespace Shorts

/-- `RESOLUTION = (1080, 1920)` of ShortsYT/video_assembler.py. -/
def RESOLUTION : ℚ × ℚ := (1080, 1920)

/-- The constant `1.15` of ShortsYT/video_assembler.py (zoom margin). -/
def zoomRatio : ℚ := 23 / 20

/-- `EFFECTS` list of ShortsYT/video_assembler.py, sampled randomly. -/
def EFFECTS : List String :=
  ["pan_up", "pan_down", "zoom_in", "zoom_out"]

/-- `resize_cover_vertical`: `scale = max(target_w / img_w, target_h / img_h)`
with target 1080x1920. -/
def coverScale (iw ih : ℚ) : ℚ := max (1080 / iw) (1920 / ih)

/-- `pan_up` y position percentage at time `t`: `100 - 100 * (t / duration)`. -/
def panUpY (d t : ℚ) : ℚ := 100 - 100 * (t / d)

/-- `pan_down` y position percentage at time `t`: `100 * (t / duration)`. -/
def panDownY (d t : ℚ) : ℚ := 100 * (t / d)

/-- `zoom_in_scale`: `1.0 + (zoom margin - 1.0) * progress`. -/
def zoomInScale (d t : ℚ) : ℚ := 1 + (zoomRatio - 1) * (t / d)

/-- `zoom_out_scale`: `zoom margin - (zoom margin - 1.0) * progress`. -/
def zoomOutScale (d t : ℚ) : ℚ := zoomRatio - (zoomRatio - 1) * (t / d)

/-- Net scale of the `zoom_in` branch relative to the original image:
cover-fit, times the zoom margin, times the `1 / margin` reset, times the
time-varying zoom, following the `resized` chain of
`apply_ken_burns_vertical`. -/
def netZoomInScale (iw ih d t : ℚ) : ℚ :=
  coverScale iw ih * zoomRatio * (1 / zoomRatio) * zoomInScale d t

/-- Net scale of the `zoom_out` branch relative to the original image. -/
def netZoomOutScale (iw ih d t : ℚ) : ℚ :=
  coverScale iw ih * zoomRatio * (1 / zoomRatio) * zoomOutScale d t

/-- Effect chosen for slide `i` given a random draw `r`:
`random.choice(EFFECTS)` modelled as an arbitrary index mod the length. -/
def effectFor (r : ℕ) : String :=
  EFFECTS.getD (r % EFFECTS.length) "center"

end Shorts

/-- The spec's full effect enumeration
{pan_left, pan_right, pan_up, pan_down, zoom_in, zoom_out, static}. -/
def fullEffectEnum : List String :=
  ["pan_left", "pan_right", "pan_up", "pan_down", "zoom_in", "zoom_out", "static"]

/-- Fatal error conditions raised by the assemblers before any rendering:
`noScenes` is the `ValueError` for an empty scene list of
`generate_photo_video`; `noSources` is the `FileNotFoundError` raised when
the photo / image / video pool is empty (the spec's `NoSourcesAvailable`). -/
inductive AsmError
| noScenes
| noSources
deriving DecidableEq

/-- One rendered slide of the still-image modes: its assigned duration,
the chosen effect tag, whether it is the solid-color fallback clip of the
`except` branch, and the index of the source photo used. -/
structure Slide where
  duration : ℚ
  effect : String
  isFiller : Bool
  photoIdx : ℕ
deriving DecidableEq

/-- Slides of a successful run, `[]` on a fatal error. -/
def slidesOf (r : Except AsmError (List Slide)) : List Slide :=
  match r with
  | .ok l => l
  | .error _ => []

/-- Whether the assembler run completed rather than aborting. -/
def runOk {α : Type} (r : Except AsmError α) : Bool :=
  match r with
  | .ok _ => true
  | .error _ => false

/-- Default slide used with `List.getD`. -/
def defaultSlide : Slide := ⟨0, "", false, 0⟩

namespace Photo

/-- `generate_photo_video` of photo_assembler.py, up to the concatenation
step: checks scenes, checks photos, assigns each scene `i` the duration
`total_duration / num_scenes`, the photo `i % len(photos)` and the effect
`EFFECTS[i % len(EFFECTS)]`, and substitutes a black filler slide of the
same duration when the clip construction for scene `i` raises
(`decodeOk i = false`). -/
def generate_photo_video (D : ℚ) (scenes photos : List String)
    (decodeOk : ℕ → Bool) : Except AsmError (List Slide) :=
  if scenes.isEmpty then .error .noScenes
  else if photos.isEmpty then .error .noSources
  else
    let n := scenes.length
    let sceneDuration := D / (n : ℚ)
    .ok ((List.range n).map (fun i =>
      if decodeOk i then
        ⟨sceneDuration, effectFor i, false, i % photos.length⟩
      else
        ⟨sceneDuration, effectFor i, true, i % photos.length⟩))

end Photo

namespace Shorts

/-- Image mode of `assemble_video`: checks the image list, assigns every
image the duration `total_duration / len(images)` and a randomly chosen
effect (`effectPick i` is slide `i`'s random draw), and substitutes a black
filler of the same duration when the clip construction raises. -/
def assemble_video_images (D : ℚ) (images : List String)
    (effectPick : ℕ → ℕ) (decodeOk : ℕ → Bool) : Except AsmError (List Slide) :=
  if images.isEmpty then .error .noSources
  else
    let n := images.length
    let imageDuration := D / (n : ℚ)
    .ok ((List.range n).map (fun i =>
      if decodeOk i then
        ⟨imageDuration, effectFor (effectPick i), false, i⟩
      else
        ⟨imageDuration, effectFor (effectPick i), true, i⟩))

/-- One emitted fast-cut slot: its duration, the index of the chosen pool
clip (`none` for the black filler of the `except` branch) and the extracted
segment `[segStart, segStop]` requested from that clip. -/
structure CutSlot where
  duration : ℚ
  sourceIdx : Option ℕ
  segStart : ℚ
  segStop : ℚ
deriving DecidableEq

/-- Segment chosen inside a source clip of duration `srcDur` for a slot of
duration `cd`: `max_start = max(0, srcDur - cd)`,
`start = random.uniform(0, max_start)` modelled as `u * max_start` for a
draw `u` in `[0, 1]`, `end = start + cd`. -/
def segmentFor (srcDur cd u : ℚ) : ℚ × ℚ :=
  let ms := max 0 (srcDur - cd)
  (u * ms, u * ms + cd)

/-- The fast-cut `while` loop of `assemble_video` (video mode), with an
explicit fuel so the recursion is structural: at each iteration `k`,
`draw k` is the `random.uniform(2, 5)` clip-duration draw, truncated to the
remaining time; the loop breaks when the truncated duration falls below
0.5 s; otherwise `pick k` chooses the pool clip (`random.choice`), the
segment is chosen by `segmentFor` with start draw `u k`, and the slot is a
filler when the extraction raises (`ok k = false`) — in both branches the
slot keeps the full duration and the running total advances by it.
`none` means the fuel ran out before the loop's own exit condition. -/
def fastCutLoop (draw u : ℕ → ℚ) (pick : ℕ → ℕ) (ok : ℕ → Bool)
    (pool : List ℚ) (total : ℚ) : ℕ → ℚ → ℕ → Option (List CutSlot)
  | 0, current, _ => if current < total then none else some []
  | fuel + 1, current, k =>
    if current < total then
      let cd0 := draw k
      let cd := if current + cd0 > total then total - current else cd0
      if cd < 1 / 2 then some []
      else
        let idx := pick k % pool.length
        let seg := segmentFor (pool.getD idx 0) cd (u k)
        let slot := if ok k then CutSlot.mk cd (some idx) seg.1 seg.2
                    else CutSlot.mk cd none seg.1 seg.2
        (fastCutLoop draw u pick ok pool total fuel (current + cd) (k + 1)).map
          (fun rest => slot :: rest)
    else some []

/-- Video mode of `assemble_video`: checks the pool of source videos, then
runs the fast-cut loop (with fuel `m`, shown adequate separately). -/
def assemble_video_videos (draw u : ℕ → ℚ) (pick : ℕ → ℕ) (ok : ℕ → Bool)
    (pool : List ℚ) (total : ℚ) (m : ℕ) : Except AsmError (List CutSlot) :=
  if pool.isEmpty then .error .noSources
  else .ok ((fastCutLoop draw u pick ok pool total m 0 0).getD [])

end Shorts

/-! ### Helper lemmas -/

/-- The pan branches always scale the image to at least the required width
`canvas + 2 * pan_distance = 2220`, so the pan margin is at least 150 px. -/
theorem le_maxPan (iw ih : ℚ) (hiw : 0 < iw) : 150 ≤ Photo.maxPan iw ih := by
  have h2 : (1920 + 2 * Photo.pan_distance) / iw ≤ Photo.panScaleFactor iw ih :=
    le_max_left _ _
  have h3 : iw * ((1920 + 2 * Photo.pan_distance) / iw) ≤ iw * Photo.panScaleFactor iw ih :=
    mul_le_mul_of_nonneg_left h2 (le_of_lt hiw)
  have h4 : iw * ((1920 + 2 * Photo.pan_distance) / iw) = 2220 := by
    rw [Photo.pan_distance]
    field_simp
    norm_num
  have h5 : (2220 : ℚ) ≤ Photo.scaledWidth iw ih := by
    rw [Photo.scaledWidth]; linarith
  rw [Photo.maxPan]
  linarith

/-- The safe pan excursion is positive for any positive image width. -/
theorem safePan_pos (iw ih : ℚ) (hiw : 0 < iw) : 0 < Photo.safePan iw ih := by
  have h := le_maxPan iw ih hiw
  rw [Photo.safePan]
  linarith

/-- A pan coordinate of the shape `s - 2 s t / d` strictly decreases in `t`. -/
theorem pan_linear_strict (s d t1 t2 : ℚ) (hs : 0 < s) (hd : 0 < d) (h : t1 < t2) :
    s - 2 * s * t2 / d < s - 2 * s * t1 / d := by
  have key : (s - 2 * s * t1 / d) - (s - 2 * s * t2 / d) = 2 * s * (t2 - t1) / d := by
    ring
  have hpos : 0 < 2 * s * (t2 - t1) / d := div_pos (by nlinarith) hd
  linarith

/-- Division by a positive denominator preserves strict order. -/
theorem frac_lt_frac (t1 t2 d : ℚ) (hd : 0 < d) (h : t1 < t2) : t1 / d < t2 / d := by
  rw [div_lt_div_iff₀ hd hd]
  exact mul_lt_mul_of_pos_right h hd

/-- Summing `n` equal slots of `D / n` recovers `D`. -/
theorem replicate_slot_sum (n : ℕ) (D : ℚ) (hn : n ≠ 0) :
    (List.replicate n (D / (n : ℚ))).sum = D := by
  rw [List.sum_replicate, nsmul_eq_mul]
  have : ((n : ℚ)) ≠ 0 := Nat.cast_ne_zero.mpr hn
  field_simp

/-- The photo assembler, on nonempty input, assigns every scene the same
slot duration `D / n`, with or without decode failures. -/
theorem photo_durations (D : ℚ) (scenes photos : List String) (decodeOk : ℕ → Bool)
    (hs : scenes ≠ []) (hp : photos ≠ []) :
    (slidesOf (Photo.generate_photo_video D scenes photos decodeOk)).map Slide.duration
      = List.replicate scenes.length (D / (scenes.length : ℚ)) := by
  rw [Photo.generate_photo_video]
  rw [if_neg (by simpa using hs), if_neg (by simpa using hp)]
  rw [slidesOf, List.map_map]
  have hfun : (Slide.duration ∘ fun i =>
      if decodeOk i then
        (⟨D / (scenes.length : ℚ), Photo.effectFor i, false, i % photos.length⟩ : Slide)
      else
        ⟨D / (scenes.length : ℚ), Photo.effectFor i, true, i % photos.length⟩)
      = fun _ => D / (scenes.length : ℚ) := by
    funext i
    by_cases h : decodeOk i <;> simp [h]
  rw [hfun]
  rw [List.map_const', List.length_range]

/-- The Shorts image mode, on nonempty input, assigns every image the same
slot duration `D / n`, with or without decode failures. -/
theorem images_durations (D : ℚ) (images : List String) (effectPick : ℕ → ℕ)
    (decodeOk : ℕ → Bool) (hi : images ≠ []) :
    (slidesOf (Shorts.assemble_video_images D images effectPick decodeOk)).map Slide.duration
      = List.replicate images.length (D / (images.length : ℚ)) := by
  rw [Shorts.assemble_video_images]
  rw [if_neg (by simpa using hi)]
  rw [slidesOf, List.map_map]
  have hfun : (Slide.duration ∘ fun i =>
      if decodeOk i then
        (⟨D / (images.length : ℚ), Shorts.effectFor (effectPick i), false, i⟩ : Slide)
      else
        ⟨D / (images.length : ℚ), Shorts.effectFor (effectPick i), true, i⟩)
      = fun _ => D / (images.length : ℚ) := by
    funext i
    by_cases h : decodeOk i <;> simp [h]
  rw [hfun]
  rw [List.map_const', List.length_range]

/-- Fuel adequacy of the fast-cut loop: any fuel of at least
`2 * (total - current)` iterations reaches the loop's own exit condition
(each non-breaking iteration advances `current` by at least 0.5 s), and at
most `fuel` slots are emitted. -/
theorem fastCutLoop_adequate (draw u : ℕ → ℚ) (pick : ℕ → ℕ) (ok : ℕ → Bool)
    (pool : List ℚ) (total : ℚ) :
    ∀ (fuel : ℕ) (current : ℚ) (k : ℕ), 2 * (total - current) ≤ (fuel : ℚ) →
      ∃ l, Shorts.fastCutLoop draw u pick ok pool total fuel current k = some l
        ∧ l.length ≤ fuel := by
  intro fuel
  induction fuel with
  | zero =>
    intro current k h
    refine ⟨[], ?_, le_refl _⟩
    have hc : ¬ current < total := by
      push_cast at h
      intro hlt
      linarith
    rw [Shorts.fastCutLoop, if_neg hc]
  | succ fuel ih =>
    intro current k h
    push_cast at h
    by_cases hc : current < total
    · rw [Shorts.fastCutLoop]
      rw [if_pos hc]
      simp only []
      set cd : ℚ := if current + draw k > total then total - current else draw k with hcd
      by_cases hsmall : cd < 1 / 2
      · rw [if_pos hsmall]
        exact ⟨[], rfl, by simp⟩
      · rw [if_neg hsmall]
        have hhalf : 1 / 2 ≤ cd := le_of_not_lt hsmall
        have hrec : 2 * (total - (current + cd)) ≤ (fuel : ℚ) := by linarith
        obtain ⟨l, hl, hlen⟩ := ih (current + cd) (k + 1) hrec
        rw [hl]
        exact ⟨_ :: l, rfl, by simpa using Nat.succ_le_succ hlen⟩
    · refine ⟨[], ?_, by simp⟩
      rw [Shorts.fastCutLoop, if_neg hc]

/-- The fast-cut loop's emitted slot durations do not depend on which
iterations fail over to the filler branch: both branches append a slot of
the full truncated duration and advance the running total by it. -/
theorem fastCutLoop_durations_indep (draw u : ℕ → ℚ) (pick : ℕ → ℕ)
    (ok1 ok2 : ℕ → Bool) (pool : List ℚ) (total : ℚ) :
    ∀ (fuel : ℕ) (current : ℚ) (k : ℕ),
      (Shorts.fastCutLoop draw u pick ok1 pool total fuel current k).map
          (List.map Shorts.CutSlot.duration)
        = (Shorts.fastCutLoop draw u pick ok2 pool total fuel current k).map
          (List.map Shorts.CutSlot.duration) := by
  intro fuel
  induction fuel with
  | zero => intro current k; rfl
  | succ fuel ih =>
    intro current k
    rw [Shorts.fastCutLoop, Shorts.fastCutLoop]
    by_cases hc : current < total
    · rw [if_pos hc, if_pos hc]
      simp only []
      set cd : ℚ := if current + draw k > total then total - current else draw k with hcd
      by_cases hsmall : cd < 1 / 2
      · rw [if_pos hsmall, if_pos hsmall]
      · rw [if_neg hsmall, if_neg hsmall]
        have hrec := ih (current + cd) (k + 1)
        cases h1 : Shorts.fastCutLoop draw u pick ok1 pool total fuel (current + cd) (k + 1) with
        | none =>
          cases h2 : Shorts.fastCutLoop draw u pick ok2 pool total fuel (current + cd) (k + 1) with
          | none => rfl
          | some l2 => rw [h1, h2] at hrec; simp at hrec
        | some l1 =>
          cases h2 : Shorts.fastCutLoop draw u pick ok2 pool total fuel (current + cd) (k + 1) with
          | none => rw [h1, h2] at hrec; simp at hrec
          | some l2 =>
            rw [h1, h2] at hrec
            simp only [Option.map_some'] at hrec ⊢
            have hdur : l1.map Shorts.CutSlot.duration = l2.map Shorts.CutSlot.duration := by
              simpa using hrec
            simp only [List.map_cons]
            rw [hdur]
            congr 2
            by_cases hk1 : ok1 k <;> by_cases hk2 : ok2 k <;> simp [hk1, hk2]
    · rw [if_neg hc, if_neg hc]

/-! ### Claim theorems -/

/-- C1: the frame coverage invariant fails on the code. At `t = 0` the
`pan_right` branch of `apply_ken_burns` places the scaled image's top-left
corner at `x = +safe_pan = 135` on the 1920x1080 canvas (for a 1920x1080
source and a 2 s slot), so the strip `[0, 135)` of the frame is exposed,
while at `t = slot_duration` the frame is covered — contradicting the
claimed invariant and the code's own avoid-black-borders comments. -/
theorem c1_frame_coverage_violated :
    coversFrameB 1920 1080 (Photo.panRightBBox 1920 1080 2 0) = false
    ∧ coversFrameB 1920 1080 (Photo.panRightBBox 1920 1080 2 2) = true
    ∧ Photo.panRightX 1920 1080 2 0 = 135 := by
  refine ⟨?_, ?_, ?_⟩ <;>
  · simp only [coversFrameB, Photo.panRightBBox, Photo.panRightX, Photo.safePan,
      Photo.maxPan, Photo.scaledWidth, Photo.scaledHeight, Photo.panScaleFactor,
      Photo.pan_distance, max_def]
    norm_num

/-- C2: in the still-image modes every slide is assigned the equal slot
duration `D / n`, and the assigned durations sum to exactly `D` (hence
within the 1e-3 s tolerance), for both the landscape photo assembler and
the Shorts image mode. -/
theorem c2_equal_partition (D : ℚ) (scenes photos images : List String)
    (decodeOk decodeOk2 : ℕ → Bool) (effectPick : ℕ → ℕ)
    (_hD : 0 < D) (hs : scenes ≠ []) (hp : photos ≠ []) (hi : images ≠ []) :
    (slidesOf (Photo.generate_photo_video D scenes photos decodeOk)).map Slide.duration
        = List.replicate scenes.length (D / (scenes.length : ℚ))
    ∧ ((slidesOf (Photo.generate_photo_video D scenes photos decodeOk)).map Slide.duration).sum = D
    ∧ |((slidesOf (Photo.generate_photo_video D scenes photos decodeOk)).map
        Slide.duration).sum - D| ≤ 1 / 1000
    ∧ (slidesOf (Shorts.assemble_video_images D images effectPick decodeOk2)).map Slide.duration
        = List.replicate images.length (D / (images.length : ℚ))
    ∧ ((slidesOf (Shorts.assemble_video_images D images effectPick decodeOk2)).map
        Slide.duration).sum = D := by
  have hns : scenes.length ≠ 0 := fun h => hs (List.length_eq_zero.mp h)
  have hni : images.length ≠ 0 := fun h => hi (List.length_eq_zero.mp h)
  have hph := photo_durations D scenes photos decodeOk hs hp
  have him := images_durations D images effectPick decodeOk2 hi
  have hsum1 : ((slidesOf (Photo.generate_photo_video D scenes photos decodeOk)).map
      Slide.duration).sum = D := by
    rw [hph, replicate_slot_sum _ _ hns]
  have hsum2 : ((slidesOf (Shorts.assemble_video_images D images effectPick decodeOk2)).map
      Slide.duration).sum = D := by
    rw [him, replicate_slot_sum _ _ hni]
  refine ⟨hph, hsum1, ?_, him, hsum2⟩
  rw [hsum1]
  simp

/-- Witness for C2 at `D = 12`, four scenes, one photo, two images. -/
theorem c2_equal_partition_witness :
    ((slidesOf (Photo.generate_photo_video 12 ["a", "b", "c", "d"] ["p"]
        (fun _ => true))).map Slide.duration).sum = 12
    ∧ ((slidesOf (Shorts.assemble_video_images 12 ["x", "y"] (fun _ => 0)
        (fun _ => true))).map Slide.duration).sum = 12 := by
  obtain ⟨_, h1, _, _, h2⟩ := c2_equal_partition 12 ["a", "b", "c", "d"] ["p"] ["x", "y"]
    (fun _ => true) (fun _ => true) (fun _ => 0)
    (by norm_num) (by simp) (by simp) (by simp)
  exact ⟨h1, h2⟩

/-- C3: zoom endpoint bounds and linear interpolation. In the landscape
photo assembler `zoom_in` runs from `BASE_SCALE` at `t = 0` to
`BASE_SCALE * (1 + ZOOM_INTENSITY)` at `t = slot_duration` and `zoom_out`
runs the reverse, linearly in `t / d`, with the position the constant
`"center"`; in the Shorts assembler the net zoom scale runs from the
cover-fit `coverScale` to `coverScale * 1.15` (`zoom_in`) and the reverse
(`zoom_out`), linearly in `t / d`. -/
theorem c3_zoom_bounds (iw ih d t : ℚ) (hd : 0 < d) :
    Photo.zoomInScale d 0 = Photo.BASE_SCALE
    ∧ Photo.zoomInScale d d = Photo.BASE_SCALE * (1 + Photo.ZOOM_INTENSITY)
    ∧ Photo.zoomOutScale d 0 = Photo.BASE_SCALE * (1 + Photo.ZOOM_INTENSITY)
    ∧ Photo.zoomOutScale d d = Photo.BASE_SCALE
    ∧ Photo.zoomInScale d t
        = Photo.BASE_SCALE
          + (Photo.BASE_SCALE * (1 + Photo.ZOOM_INTENSITY) - Photo.BASE_SCALE) * (t / d)
    ∧ Photo.zoomOutScale d t
        = Photo.BASE_SCALE * (1 + Photo.ZOOM_INTENSITY)
          + (Photo.BASE_SCALE - Photo.BASE_SCALE * (1 + Photo.ZOOM_INTENSITY)) * (t / d)
    ∧ Photo.zoomPosition t = Photo.zoomPosition 0
    ∧ Shorts.netZoomInScale iw ih d 0 = Shorts.coverScale iw ih
    ∧ Shorts.netZoomInScale iw ih d d = Shorts.coverScale iw ih * Shorts.zoomRatio
    ∧ Shorts.netZoomOutScale iw ih d 0 = Shorts.coverScale iw ih * Shorts.zoomRatio
    ∧ Shorts.netZoomOutScale iw ih d d = Shorts.coverScale iw ih
    ∧ Shorts.netZoomInScale iw ih d t
        = Shorts.coverScale iw ih
          + (Shorts.coverScale iw ih * Shorts.zoomRatio - Shorts.coverScale iw ih) * (t / d) := by
  have hdd : d / d = 1 := div_self (ne_of_gt hd)
  refine ⟨?_, ?_, ?_, ?_, ?_, ?_, rfl, ?_, ?_, ?_, ?_, ?_⟩
  · rw [Photo.zoomInScale]; ring
  · rw [Photo.zoomInScale, hdd]; ring
  · rw [Photo.zoomOutScale]; ring
  · rw [Photo.zoomOutScale, hdd]; ring
  · rw [Photo.zoomInScale]; ring
  · rw [Photo.zoomOutScale]; ring
  · rw [Shorts.netZoomInScale, Shorts.zoomInScale, Shorts.zoomRatio]; ring
  · rw [Shorts.netZoomInScale, Shorts.zoomInScale, Shorts.zoomRatio, hdd]; ring
  · rw [Shorts.netZoomOutScale, Shorts.zoomOutScale, Shorts.zoomRatio]; ring
  · rw [Shorts.netZoomOutScale, Shorts.zoomOutScale, Shorts.zoomRatio, hdd]; ring
  · rw [Shorts.netZoomInScale, Shorts.zoomInScale, Shorts.zoomRatio]; ring

/-- Witness for C3 at a 1080x1920 source and a 2 s slot. -/
theorem c3_zoom_bounds_witness :
    Photo.zoomInScale 2 0 = Photo.BASE_SCALE
    ∧ Shorts.netZoomInScale 1080 1920 2 2 = Shorts.coverScale 1080 1920 * Shorts.zoomRatio := by
  obtain ⟨h1, _, _, _, _, _, _, _, h9, _⟩ := c3_zoom_bounds 1080 1920 2 1 (by norm_num)
  exact ⟨h1, h9⟩

/-- C4 counterexample: for a 1920x1080 source the pan margin is
`max_pan = 150` but the `pan_right` coordinate starts at `+135` and ends at
`-135` — the code caps the excursion at `safe_pan = 0.9 * max_pan`, so the
coordinate never attains the claimed extremes `±margin_px`. -/
theorem c4_pan_extremes_counterexample :
    Photo.panRightX 1920 1080 2 0 = 135
    ∧ Photo.maxPan 1920 1080 = 150
    ∧ Photo.panRightX 1920 1080 2 0 ≠ Photo.maxPan 1920 1080
    ∧ Photo.panRightX 1920 1080 2 2 = -135
    ∧ Photo.panRightX 1920 1080 2 2 ≠ -Photo.maxPan 1920 1080 := by
  refine ⟨?_, ?_, ?_, ?_, ?_⟩ <;>
  · simp only [Photo.panRightX, Photo.safePan, Photo.maxPan, Photo.scaledWidth,
      Photo.panScaleFactor, Photo.pan_distance, max_def]
    norm_num

/-- C4 amended: each pan coordinate is a linear, strictly monotonic
function of `t` attaining its extremes exactly at `t = 0` and
`t = slot_duration`; for `pan_right`/`pan_left` the extremes are
`±safe_pan = ±0.9 * max_pan` (not `±max_pan`), with `pan_right` strictly
decreasing and `pan_left` strictly increasing; for `pan_up`/`pan_down` the
animated coordinate is the y-position percentage, running strictly and
linearly from 100 to 0 (`pan_up`) and from 0 to 100 (`pan_down`). -/
theorem c4_monotonic_pan_amended (iw ih d t t1 t2 : ℚ)
    (hiw : 0 < iw) (_hih : 0 < ih) (hd : 0 < d) (h12 : t1 < t2) :
    Photo.panRightX iw ih d 0 = Photo.safePan iw ih
    ∧ Photo.panRightX iw ih d d = -Photo.safePan iw ih
    ∧ Photo.safePan iw ih = Photo.maxPan iw ih * (9 / 10)
    ∧ 150 ≤ Photo.maxPan iw ih
    ∧ Photo.panRightX iw ih d t2 < Photo.panRightX iw ih d t1
    ∧ Photo.panRightX iw ih d t
        = Photo.safePan iw ih
          + (-Photo.safePan iw ih - Photo.safePan iw ih) * (t / d)
    ∧ Photo.panLeftX iw ih d 0 = -Photo.safePan iw ih
    ∧ Photo.panLeftX iw ih d d = Photo.safePan iw ih
    ∧ Photo.panLeftX iw ih d t1 < Photo.panLeftX iw ih d t2
    ∧ Photo.panLeftX iw ih d t
        = -Photo.safePan iw ih
          + (Photo.safePan iw ih - -Photo.safePan iw ih) * (t / d)
    ∧ Shorts.panUpY d 0 = 100
    ∧ Shorts.panUpY d d = 0
    ∧ Shorts.panUpY d t2 < Shorts.panUpY d t1
    ∧ Shorts.panUpY d t = 100 + (0 - 100) * (t / d)
    ∧ Shorts.panDownY d 0 = 0
    ∧ Shorts.panDownY d d = 100
    ∧ Shorts.panDownY d t1 < Shorts.panDownY d t2
    ∧ Shorts.panDownY d t = 0 + (100 - 0) * (t / d) := by
  have hdd : d / d = 1 := div_self (ne_of_gt hd)
  have hsp : 0 < Photo.safePan iw ih := safePan_pos iw ih hiw
  have hstrict := pan_linear_strict (Photo.safePan iw ih) d t1 t2 hsp hd h12
  have hfrac := frac_lt_frac t1 t2 d hd h12
  refine ⟨?_, ?_, ?_, le_maxPan iw ih hiw, ?_, ?_, ?_, ?_, ?_, ?_, ?_, ?_, ?_, ?_, ?_, ?_, ?_, ?_⟩
  · rw [Photo.panRightX]; ring
  · rw [Photo.panRightX]; field_simp; ring
  · rw [Photo.safePan]
  · rw [Photo.panRightX, Photo.panRightX]; exact hstrict
  · rw [Photo.panRightX]; ring
  · rw [Photo.panLeftX]; ring
  · rw [Photo.panLeftX]; field_simp; ring
  · rw [Photo.panLeftX, Photo.panLeftX]; linarith
  · rw [Photo.panLeftX]; ring
  · rw [Shorts.panUpY]; ring
  · rw [Shorts.panUpY, hdd]; ring
  · rw [Shorts.panUpY, Shorts.panUpY]; linarith
  · rw [Shorts.panUpY]; ring
  · rw [Shorts.panDownY]; ring
  · rw [Shorts.panDownY, hdd]; ring
  · rw [Shorts.panDownY, Shorts.panDownY]; linarith
  · rw [Shorts.panDownY]; ring

/-- Witness for C4 at a 1920x1080 source, `d = 2`, `t1 = 0`, `t2 = 2`. -/
theorem c4_monotonic_pan_witness :
    Photo.panRightX 1920 1080 2 2 < Photo.panRightX 1920 1080 2 0
    ∧ Photo.panRightX 1920 1080 2 0 = Photo.safePan 1920 1080
    ∧ Shorts.panUpY 2 2 < Shorts.panUpY 2 0 := by
  obtain ⟨h1, _, _, _, h5, _, _, _, _, _, _, _, h13, _⟩ :=
    c4_monotonic_pan_amended 1920 1080 2 1 0 2
      (by norm_num) (by norm_num) (by norm_num) (by norm_num)
  exact ⟨h5, h1, h13⟩

/-- C5 counterexample: the landscape photo assembler's `zoom_in` branch
never computes a cover-fit base scale — its scale is the fixed constant
`BASE_SCALE = 1.35` at `t = 0` and `1.62` at `t = d` regardless of the
source size, while the claimed cover-fit base scale of a 100x100 source in
the 1920x1080 frame is `max(1920/100, 1080/100) = 19.2`, above everything
the branch ever applies. -/
theorem c5_cover_fit_counterexample :
    Photo.zoomInScale 1 0 = 27 / 20
    ∧ Photo.zoomInScale 1 1 = 81 / 50
    ∧ Photo.zoomInScale 1 0 ≠ max ((1920 : ℚ) / 100) ((1080 : ℚ) / 100)
    ∧ Photo.zoomInScale 1 1 < max ((1920 : ℚ) / 100) ((1080 : ℚ) / 100) := by
  refine ⟨?_, ?_, ?_, ?_⟩ <;>
  · simp only [Photo.zoomInScale, Photo.BASE_SCALE, Photo.ZOOM_INTENSITY, max_def]
    norm_num

/-- C5 amended: the vertical Shorts assembler's `resize_cover_vertical`
computes, for every effect, exactly the minimum uniform scale at which the
scaled source covers the 1080x1920 frame in both dimensions; the landscape
photo assembler uses other scales (see the counterexample). -/
theorem c5_cover_fit_amended (iw ih s : ℚ) (hiw : 0 < iw) (hih : 0 < ih)
    (hs1 : 1080 ≤ s * iw) (hs2 : 1920 ≤ s * ih) :
    1080 ≤ Shorts.coverScale iw ih * iw
    ∧ 1920 ≤ Shorts.coverScale iw ih * ih
    ∧ Shorts.coverScale iw ih ≤ s := by
  refine ⟨?_, ?_, ?_⟩
  · have h1 : (1080 : ℚ) / iw ≤ Shorts.coverScale iw ih := le_max_left _ _
    have h2 := mul_le_mul_of_nonneg_right h1 (le_of_lt hiw)
    rw [div_mul_cancel₀ _ (ne_of_gt hiw)] at h2
    exact h2
  · have h1 : (1920 : ℚ) / ih ≤ Shorts.coverScale iw ih := le_max_right _ _
    have h2 := mul_le_mul_of_nonneg_right h1 (le_of_lt hih)
    rw [div_mul_cancel₀ _ (ne_of_gt hih)] at h2
    exact h2
  · apply max_le
    · rw [div_le_iff₀ hiw]; exact hs1
    · rw [div_le_iff₀ hih]; exact hs2

/-- Witness for C5 at a 1080x1920 source with competitor scale `s = 2`. -/
theorem c5_cover_fit_witness :
    1080 ≤ Shorts.coverScale 1080 1920 * 1080
    ∧ Shorts.coverScale 1080 1920 ≤ 2 := by
  obtain ⟨h1, _, h3⟩ := c5_cover_fit_amended 1080 1920 2
    (by norm_num) (by norm_num) (by norm_num) (by norm_num)
  exact ⟨h1, h3⟩

/-- C6: with zero usable sources each compositor entry point fails with the
`NoSourcesAvailable` condition before building any clip (the returned value
is the error, so no slide list and no output is produced): the photo
assembler with an empty photo directory, the Shorts image mode with an
empty image list, and the Shorts video mode with an empty video pool. -/
theorem c6_fatal_on_empty (D total : ℚ) (scenes : List String)
    (decodeOk decodeOk2 : ℕ → Bool) (effectPick : ℕ → ℕ)
    (draw u : ℕ → ℚ) (pick : ℕ → ℕ) (ok : ℕ → Bool) (m : ℕ)
    (hs : scenes ≠ []) :
    Photo.generate_photo_video D scenes [] decodeOk = .error .noSources
    ∧ runOk (Photo.generate_photo_video D scenes [] decodeOk) = false
    ∧ Shorts.assemble_video_images D [] effectPick decodeOk2 = .error .noSources
    ∧ runOk (Shorts.assemble_video_images D [] effectPick decodeOk2) = false
    ∧ Shorts.assemble_video_videos draw u pick ok [] total m = .error .noSources
    ∧ runOk (Shorts.assemble_video_videos draw u pick ok [] total m) = false := by
  have h1 : Photo.generate_photo_video D scenes [] decodeOk = .error .noSources := by
    rw [Photo.generate_photo_video]
    rw [if_neg (by simpa using hs)]
    rfl
  refine ⟨h1, by rw [h1]; rfl, rfl, rfl, rfl, rfl⟩

/-- Witness for C6 with a single-scene script. -/
theorem c6_fatal_on_empty_witness :
    Photo.generate_photo_video 5 ["s"] [] (fun _ => true) = .error .noSources
    ∧ Shorts.assemble_video_videos (fun _ => 3) (fun _ => 0) (fun _ => 0)
        (fun _ => true) [] 5 11 = .error .noSources := by
  obtain ⟨h1, _, _, _, h5, _⟩ := c6_fatal_on_empty 5 5 ["s"] (fun _ => true) (fun _ => true)
    (fun _ => 0) (fun _ => 3) (fun _ => 0) (fun _ => 0) (fun _ => true) 11 (by simp)
  exact ⟨h1, h5⟩

/-- C7: a decode failure of scene `i` is recovered locally — the run still
completes with one slide per scene, slide `i` is the filler and keeps
exactly the slot duration `D / n`, the durations (hence their sum `D`) are
unchanged by which scenes fail, and likewise the fast-cut loop's emitted
durations do not depend on which iterations fail over to the filler. -/
theorem c7_degrade_on_failure (D total : ℚ) (scenes photos : List String)
    (decodeOk altOk : ℕ → Bool) (i : ℕ)
    (draw u : ℕ → ℚ) (pick : ℕ → ℕ) (ok1 ok2 : ℕ → Bool) (pool : List ℚ)
    (fuel : ℕ) (current : ℚ) (k : ℕ)
    (hs : scenes ≠ []) (hp : photos ≠ []) (hi : i < scenes.length)
    (hfail : decodeOk i = false) :
    runOk (Photo.generate_photo_video D scenes photos decodeOk) = true
    ∧ (slidesOf (Photo.generate_photo_video D scenes photos decodeOk)).length = scenes.length
    ∧ ((slidesOf (Photo.generate_photo_video D scenes photos decodeOk)).getD i
        defaultSlide).isFiller = true
    ∧ ((slidesOf (Photo.generate_photo_video D scenes photos decodeOk)).getD i
        defaultSlide).duration = D / (scenes.length : ℚ)
    ∧ ((slidesOf (Photo.generate_photo_video D scenes photos decodeOk)).map
        Slide.duration).sum = D
    ∧ (slidesOf (Photo.generate_photo_video D scenes photos decodeOk)).map Slide.duration
        = (slidesOf (Photo.generate_photo_video D scenes photos altOk)).map Slide.duration
    ∧ (Shorts.fastCutLoop draw u pick ok1 pool total fuel current k).map
        (List.map Shorts.CutSlot.duration)
        = (Shorts.fastCutLoop draw u pick ok2 pool total fuel current k).map
          (List.map Shorts.CutSlot.duration) := by
  have hns : scenes.length ≠ 0 := fun h => hs (List.length_eq_zero.mp h)
  have hgen : Photo.generate_photo_video D scenes photos decodeOk
      = .ok ((List.range scenes.length).map (fun j =>
          if decodeOk j then
            (⟨D / (scenes.length : ℚ), Photo.effectFor j, false, j % photos.length⟩ : Slide)
          else
            ⟨D / (scenes.length : ℚ), Photo.effectFor j, true, j % photos.length⟩)) := by
    rw [Photo.generate_photo_video, if_neg (by simpa using hs), if_neg (by simpa using hp)]
  have hat : (slidesOf (Photo.generate_photo_video D scenes photos decodeOk)).getD i
      defaultSlide
      = ⟨D / (scenes.length : ℚ), Photo.effectFor i, true, i % photos.length⟩ := by
    rw [hgen, slidesOf]
    have hlt : i < ((List.range scenes.length).map (fun j =>
        if decodeOk j then
          (⟨D / (scenes.length : ℚ), Photo.effectFor j, false, j % photos.length⟩ : Slide)
        else
          ⟨D / (scenes.length : ℚ), Photo.effectFor j, true, j % photos.length⟩)).length := by
      simpa using hi
    rw [List.getD_eq_getElem _ _ hlt]
    simp only [List.getElem_map, List.getElem_range]
    rw [if_neg (by rw [hfail]; exact Bool.false_ne_true)]
  refine ⟨by rw [hgen]; rfl, ?_, by rw [hat], by rw [hat], ?_, ?_, ?_⟩
  · rw [hgen, slidesOf]; simp
  · rw [photo_durations D scenes photos decodeOk hs hp, replicate_slot_sum _ _ hns]
  · rw [photo_durations D scenes photos decodeOk hs hp,
      photo_durations D scenes photos altOk hs hp]
  · exact fastCutLoop_durations_indep draw u pick ok1 ok2 pool total fuel current k

/-- Witness for C7: two scenes, the second scene's decode fails. -/
theorem c7_degrade_on_failure_witness :
    ((slidesOf (Photo.generate_photo_video 6 ["a", "b"] ["p"]
        (fun j => j == 0))).getD 1 defaultSlide).isFiller = true
    ∧ ((slidesOf (Photo.generate_photo_video 6 ["a", "b"] ["p"]
        (fun j => j == 0))).map Slide.duration).sum = 6 := by
  obtain ⟨_, _, h3, _, h5, _, _⟩ := c7_degrade_on_failure 6 0 ["a", "b"] ["p"]
    (fun j => j == 0) (fun _ => true) 1 (fun _ => 0) (fun _ => 0) (fun _ => 0)
    (fun _ => true) (fun _ => true) [] 0 0 0
    (by simp) (by simp) (by norm_num) rfl
  exact ⟨h3, h5⟩

/-- C8 counterexample: with a pool holding a single 1 s clip and a 2 s slot
(total 2, draw 2), the loop emits a non-filler slot that requests the
segment `[0, 2]` of the 1 s clip — `start + slot_duration ≤ clip_duration`
fails and no other clip is chosen and no filler is substituted. -/
theorem c8_segment_counterexample :
    Shorts.fastCutLoop (fun _ => 2) (fun _ => 0) (fun _ => 0) (fun _ => true) [1] 2 5 0 0
      = some [Shorts.CutSlot.mk 2 (some 0) 0 2]
    ∧ ¬ ((Shorts.CutSlot.mk (2 : ℚ) (some 0) 0 2).segStop ≤ [(1 : ℚ)].getD 0 0) := by
  constructor
  · simp only [Shorts.fastCutLoop, Shorts.segmentFor]
    norm_num
  · simp only [List.getD]
    norm_num

/-- C8 amended: each slot's start offset is drawn uniformly from
`[0, max(0, clip_duration - slot_duration)]` and the chosen pool index is
always valid; whenever the chosen clip is at least as long as the slot this
guarantees `start + slot_duration ≤ clip_duration`; when the clip is
shorter the code keeps the same clip with `start = 0` and requests a
segment ending at `slot_duration`, beyond the clip's end — it neither
re-chooses nor substitutes a filler at selection time. -/
theorem c8_segment_amended (srcDur cd uDraw : ℚ) (j : ℕ) (pool : List ℚ)
    (h0 : 0 ≤ uDraw) (h1 : uDraw ≤ 1) (hpool : pool ≠ []) :
    0 ≤ (Shorts.segmentFor srcDur cd uDraw).1
    ∧ (Shorts.segmentFor srcDur cd uDraw).2 = (Shorts.segmentFor srcDur cd uDraw).1 + cd
    ∧ (cd ≤ srcDur → (Shorts.segmentFor srcDur cd uDraw).2 ≤ srcDur)
    ∧ (srcDur < cd → (Shorts.segmentFor srcDur cd uDraw).1 = 0
        ∧ (Shorts.segmentFor srcDur cd uDraw).2 = cd)
    ∧ j % pool.length < pool.length := by
  have hms : (0 : ℚ) ≤ max 0 (srcDur - cd) := le_max_left _ _
  refine ⟨?_, rfl, ?_, ?_, ?_⟩
  · exact mul_nonneg h0 hms
  · intro hle
    have hmax : max 0 (srcDur - cd) = srcDur - cd := max_eq_right (by linarith)
    have hstart : uDraw * max 0 (srcDur - cd) ≤ srcDur - cd := by
      rw [hmax]
      nlinarith
    rw [Shorts.segmentFor]
    simp only []
    linarith
  · intro hlt
    have hmax : max 0 (srcDur - cd) = 0 := max_eq_left (by linarith)
    constructor
    · simp [Shorts.segmentFor, hmax]
    · simp [Shorts.segmentFor, hmax]
  · exact Nat.mod_lt _ (List.length_pos.mpr hpool)

/-- Witness for C8: a 5 s clip, a 2 s slot, start draw 1/2. -/
theorem c8_segment_witness :
    0 ≤ (Shorts.segmentFor 5 2 (1 / 2)).1
    ∧ (Shorts.segmentFor 5 2 (1 / 2)).2 ≤ 5 := by
  obtain ⟨ha, _, hc, _, _⟩ := c8_segment_amended 5 2 (1 / 2) 0 [5]
    (by norm_num) (by norm_num) (by simp)
  exact ⟨ha, hc (by norm_num)⟩

/-- C9 counterexample: the claimed enumeration contains `pan_up` and
`static`, but the landscape assembler's round-robin cycle (`EFFECTS`, all
five values of `effectFor`) never produces `pan_up`, and the Shorts
assembler's random pool does not contain `static` — neither selector
ranges over the claimed 7-effect enumeration. -/
theorem c9_selector_counterexample :
    ("pan_up" ∈ fullEffectEnum ∧ "pan_up" ∉ Photo.EFFECTS
      ∧ ((List.range 5).map Photo.effectFor).count "pan_up" = 0)
    ∧ ("static" ∈ fullEffectEnum ∧ "static" ∉ Shorts.EFFECTS) := by
  refine ⟨⟨by decide, by decide, ?_⟩, by decide, by decide⟩
  decide

/-- C9 amended: each assembler assigns every slide one effect from the
7-effect enumeration, but from its own fixed sublist and with a fixed
policy: the landscape assembler cycles deterministically with period 5
through its `EFFECTS` list, and the Shorts assembler picks randomly from
its 4-element `EFFECTS` list; the deterministic-vs-random choice is fixed
per assembler rather than exposed as a parameter. -/
theorem c9_selector_amended (i r : ℕ) :
    Photo.effectFor i ∈ fullEffectEnum
    ∧ Photo.effectFor i ∈ Photo.EFFECTS
    ∧ Photo.effectFor (i + 5) = Photo.effectFor i
    ∧ Shorts.effectFor r ∈ fullEffectEnum
    ∧ Shorts.effectFor r ∈ Shorts.EFFECTS := by
  have hp : i % 5 = 0 ∨ i % 5 = 1 ∨ i % 5 = 2 ∨ i % 5 = 3 ∨ i % 5 = 4 := by omega
  have hr : r % 4 = 0 ∨ r % 4 = 1 ∨ r % 4 = 2 ∨ r % 4 = 3 := by omega
  have hplen : Photo.EFFECTS.length = 5 := rfl
  have hslen : Shorts.EFFECTS.length = 4 := rfl
  refine ⟨?_, ?_, ?_, ?_, ?_⟩
  · rw [Photo.effectFor, hplen]
    rcases hp with h | h | h | h | h <;> rw [h] <;> decide
  · rw [Photo.effectFor, hplen]
    rcases hp with h | h | h | h | h <;> rw [h] <;> decide
  · rw [Photo.effectFor, Photo.effectFor, hplen, Nat.add_mod_right]
  · rw [Shorts.effectFor, hslen]
    rcases hr with h | h | h | h <;> rw [h] <;> decide
  · rw [Shorts.effectFor, hslen]
    rcases hr with h | h | h | h <;> rw [h] <;> decide

/-- C10: the fast-cut loop terminates for every draw stream: any fuel `m`
with `2 * total_duration ≤ m` already reaches the loop's own exit
condition (each non-breaking iteration adds at least 0.5 s, in the filler
branch as well), and at most `m` clips are emitted — in particular at most
`ceil(total / 0.5)` for the least such `m`. -/
theorem c10_fastcut_terminates (draw u : ℕ → ℚ) (pick : ℕ → ℕ) (ok : ℕ → Bool)
    (pool : List ℚ) (total : ℚ) (m : ℕ) (hm : 2 * total ≤ (m : ℚ)) :
    (Shorts.fastCutLoop draw u pick ok pool total m 0 0).isSome = true
    ∧ ((Shorts.fastCutLoop draw u pick ok pool total m 0 0).getD []).length ≤ m := by
  obtain ⟨l, hl, hlen⟩ := fastCutLoop_adequate draw u pick ok pool total m 0 0
    (by simpa using hm)
  rw [hl]
  exact ⟨rfl, by simpa using hlen⟩

/-- Witness for C10: total 14 s, constant 3 s draws, fuel 30. -/
theorem c10_fastcut_terminates_witness :
    (Shorts.fastCutLoop (fun _ => 3) (fun _ => 0) (fun _ => 0) (fun _ => true)
        [10] 14 30 0 0).isSome = true
    ∧ ((Shorts.fastCutLoop (fun _ => 3) (fun _ => 0) (fun _ => 0) (fun _ => true)
        [10] 14 30 0 0).getD []).length ≤ 30 :=
  c10_fastcut_terminates (fun _ => 3) (fun _ => 0) (fun _ => 0) (fun _ => true)
    [10] 14 30 (by norm_num)

end LongFormYT
